import Mathlib

/-!
Verification of burp (src/burp.c): credential resolution, login fallback
state machine, and batch-upload aggregation, modelled as a shallow
embedding in Lean.
-/

namespace Burp

/-! Errno values (Linux) and exit codes used by the program. -/

def ENOENT : Int := 2
def EACCES : Int := 13
def EINVAL : Int := 22
def EBADR : Int := 53
def ENOKEY : Int := 126
def EKEYEXPIRED : Int := 127
def EKEYREJECTED : Int := 129
def EXIT_SUCCESS : Int := 0
def EXIT_FAILURE : Int := 1

/-! The category catalog (src/burp.c lines 13-39). -/

structure Category where
  name : String
  id : String
deriving DecidableEq

/-- The compiled-in category table, in source order. -/
def categories : List Category :=
  [ ⟨"daemons", "2"⟩,
    ⟨"devel", "3"⟩,
    ⟨"editors", "4"⟩,
    ⟨"emulators", "5"⟩,
    ⟨"fonts", "20"⟩,
    ⟨"games", "6"⟩,
    ⟨"gnome", "7"⟩,
    ⟨"i18n", "8"⟩,
    ⟨"kde", "9"⟩,
    ⟨"kernels", "19"⟩,
    ⟨"lib", "10"⟩,
    ⟨"modules", "11"⟩,
    ⟨"multimedia", "12"⟩,
    ⟨"network", "13"⟩,
    ⟨"office", "14"⟩,
    ⟨"science", "15"⟩,
    ⟨"system", "16"⟩,
    ⟨"x11", "17"⟩,
    ⟨"xfce", "18"⟩ ]

/-- C strcmp on byte sequences, restricted to the sign of the result
(all strings involved are ASCII, so char order equals byte order). -/
def strcmp : List Char → List Char → Int
  | [], [] => 0
  | [], _ :: _ => -1
  | _ :: _, [] => 1
  | x :: xs, y :: ys =>
    if x.toNat < y.toNat then -1
    else if y.toNat < x.toNat then 1
    else strcmp xs ys

/-- category_compare (src/burp.c lines 48-52): strcmp on the names. -/
def category_compare (l r : Category) : Int := strcmp l.name.data r.name.data

/-- glibc bsearch over the categories table, written with explicit
interval bounds and a fuel argument that dominates the number of
halving steps (so the recursion is structural and computable). -/
def bsearchAux (key : String) : Nat → Nat → Nat → Option String
  | 0, _, _ => none
  | fuel + 1, lo, hi =>
    if lo < hi then
      let mid := (lo + hi) / 2
      match categories.get? mid with
      | none => none
      | some c =>
        let cmp := strcmp key.data c.name.data
        if cmp < 0 then bsearchAux key fuel lo mid
        else if 0 < cmp then bsearchAux key fuel (mid + 1) hi
        else some c.id
    else none

/-- category_validate (src/burp.c lines 54-62): binary search by name,
returning the id on a hit and none (NULL) on a miss. -/
def category_validate (cat : String) : Option String :=
  bsearchAux cat (categories.length + 1) 0 categories.length

/-- usage_categories (src/burp.c lines 196-200): the names printed for
the user, produced by iterating the table in index order. -/
def usage_categories : List String :=
  (List.range categories.length).filterMap fun i => (categories.get? i).map (·.name)

example : category_validate "kde" = some "9" := by decide
example : category_validate "zzz" = none := by decide
example : category_validate "daemons" = some "2" := by decide
example : category_validate "xfce" = some "18" := by decide

/-! Configuration file machinery (src/burp.c lines 104-194). -/

/-- C isspace in the default locale (space, tab, newline, vertical tab,
form feed, carriage return). -/
def isspace (c : Char) : Bool :=
  c = ' ' || c = '\t' || c = '\n' || c = Char.ofNat 11 || c = Char.ofNat 12 || c = '\r'

/-- strtrim (src/burp.c lines 104-128): drop leading whitespace, then
drop trailing whitespace. -/
def strtrim (l : List Char) : List Char :=
  (l.dropWhile isspace).rdropWhile isspace

/-- strsep(&value, "=") on key = value = line: the part before the first
equals sign, and the part after it (none when there is no equals sign,
in which case value is left as the NULL pointer). -/
def splitEq : List Char → List Char × Option (List Char)
  | [] => ([], none)
  | c :: cs =>
    if c = '=' then ([], some cs)
    else
      let r := splitEq cs
      (c :: r.1, r.2)

/-- The global argument state (src/burp.c lines 41-46): defaults active
before the config file and CLI arguments are applied. -/
structure ArgState where
  arg_domain : String
  arg_username : Option String
  arg_password : Option String
  arg_cookiefile : Option String
  arg_category : String
  arg_persist_cookies : Bool
deriving DecidableEq

/-- The initial values of the globals (src/burp.c lines 41-46). -/
def initialArgs : ArgState :=
  { arg_domain := "aur.archlinux.org"
    arg_username := none
    arg_password := none
    arg_cookiefile := none
    arg_category := "1"
    arg_persist_cookies := false }

/-- The key dispatch of the config-file loop (src/burp.c lines 170-190),
after both key and value have been trimmed. A result of none models
undefined behaviour: strdup(value) and shell_expand(value) dereference
value, which is NULL when the line had no equals sign. The expand
parameter models the external wordexp-based shell_expand; its failure is
soft (the value is discarded). -/
def handleKeyValue (expand : String → Option String) (st : ArgState)
    (key : List Char) (value : Option (List Char)) : Option ArgState :=
  if key = "User".data then
    match value with
    | some v => some { st with arg_username := some (String.mk v) }
    | none => none
  else if key = "Password".data then
    match value with
    | some v => some { st with arg_password := some (String.mk v) }
    | none => none
  else if key = "Cookies".data then
    match value with
    | some v =>
      match expand (String.mk v) with
      | some e => some { st with arg_cookiefile := some e }
      | none => some st
    | none => none
  else if key = "Persist".data then
    some { st with arg_persist_cookies := true }
  else
    some st

/-- One iteration of the config-file read loop (src/burp.c lines
155-191): trim the line, skip blank and comment lines, split at the
first equals sign, trim key and value, dispatch on the key. -/
def processLine (expand : String → Option String) (st : ArgState)
    (line : List Char) : Option ArgState :=
  let l := strtrim line
  if l.length = 0 then some st
  else if l.head? = some '#' then some st
  else
    let kv := splitEq l
    handleKeyValue expand st (strtrim kv.1) (kv.2.map strtrim)

/-- The possible outcomes of locating and opening the config file
(src/burp.c lines 130-153). -/
inductive ConfigOpen
  | noPath
  | openFail (errno : Int)
  | opened (lines : List (List Char))

/-- read_config_file (src/burp.c lines 130-194): returns the updated
globals and the function result; none models a crash (undefined
behaviour) while processing a line. A missing file (fopen failing with
ENOENT) and an undeterminable path are ignored; any other open failure
returns -errno. -/
def read_config_file (expand : String → Option String) (cfg : ConfigOpen)
    (st : ArgState) : Option (ArgState × Int) :=
  match cfg with
  | .noPath => some (st, 0)
  | .openFail e => if e ≠ ENOENT then some (st, -e) else some (st, 0)
  | .opened lines => (lines.foldlM (processLine expand) st).map (·, 0)

example :
    processLine (fun s => some s) initialArgs "  User = alice  ".data =
      some { initialArgs with arg_username := some "alice" } := by decide
example :
    processLine (fun s => some s) initialArgs "User=alice".data =
      some { initialArgs with arg_username := some "alice" } := by decide
example : processLine (fun s => some s) initialArgs "User".data = none := by decide
example : processLine (fun s => some s) initialArgs "Persist".data =
    some { initialArgs with arg_persist_cookies := true } := by decide
example : processLine (fun s => some s) initialArgs "   # comment".data =
    some initialArgs := by decide
example : processLine (fun s => some s) initialArgs "  ".data = some initialArgs := by decide

/-! CLI argument parsing (src/burp.c lines 227-278). -/

/-- One parsed CLI option, as delivered by getopt_long. -/
inductive CliOpt
  | cookies (file : String)
  | category (cat : String)
  | showHelp
  | keepCookies
  | password (p : String)
  | user (u : String)
  | domain (d : String)

/-- parseargs (src/burp.c lines 227-278): fold the options over the
globals; -h prints usage and returns 0 at once; an invalid category
prints the valid names and returns -EINVAL. -/
def parseargs (st : ArgState) : List CliOpt → ArgState × Int
  | [] => (st, 0)
  | o :: rest =>
    match o with
    | .cookies f => parseargs { st with arg_cookiefile := some f } rest
    | .category c =>
      match category_validate c with
      | some id => parseargs { st with arg_category := id } rest
      | none => (st, -EINVAL)
    | .showHelp => (st, 0)
    | .keepCookies => parseargs { st with arg_persist_cookies := true } rest
    | .password p => parseargs { st with arg_password := some p } rest
    | .user u => parseargs { st with arg_username := some u } rest
    | .domain d => parseargs { st with arg_domain := d } rest

/-! Login flow and the upload loop (src/burp.c lines 280-363). -/

/-- The terminal state of the login phase. -/
inductive LoginState
  | Authenticated
  | Failed (err : Int)
deriving DecidableEq

/-- The diagnostic printed by make_login_error (src/burp.c lines
280-300). The generic arm carries the errno formatted through
strerror. -/
inductive LoginMessage
  | text (s : String)
  | genericSystemError (err : Int)
deriving DecidableEq

/-- make_login_error (src/burp.c lines 280-300): map the login errno to
a diagnostic, and return EXIT_FAILURE. -/
def make_login_error (err : Int) : LoginMessage × Int :=
  ( if -err = EBADR then .text "error: insufficient credentials provided to login.\n"
    else if -err = EACCES then .text "error: bad username or password.\n"
    else if -err = EKEYEXPIRED then .text "error: required login cookie has expired.\n"
    else if -err = EKEYREJECTED then .text "error: login cookie not accepted.\n"
    else .genericSystemError err,
    EXIT_FAILURE )

/-- One line printed by the upload loop. -/
inductive UploadReport
  | ok (path : String)
  | failed (path : String)
deriving DecidableEq

/-- The upload loop of main (src/burp.c lines 347-358): r is the running
result seeded with the login result; each target is attempted, its
outcome reported in order, and on failure r records the first failing
code. -/
def uploadLoop (r : Int) : List (String × Int) → List UploadReport × Int
  | [] => ([], r)
  | (path, k) :: rest =>
    if k = 0 then
      let t := uploadLoop r rest
      (.ok path :: t.1, t.2)
    else
      let t := uploadLoop (if r = 0 then k else r) rest
      (.failed path :: t.1, t.2)

/-- The environment of a single invocation: the config-file open
outcome, the external shell expansion, the parsed CLI options, the
results the external AUR client returns for the cookie login, the
password login, and each upload target. -/
structure Env where
  expand : String → Option String
  config : ConfigOpen
  cli : List CliOpt
  cookieLogin : Int
  passwordLogin : Int
  uploads : List (String × Int)

/-- Everything observable about one run of main. loginSeq lists the
useCredentials argument of each aur_login call in order. -/
structure RunResult where
  exitCode : Int
  loginSeq : List Bool
  warned : Bool
  authState : Option LoginState
  loginDiag : Option LoginMessage
  reports : List UploadReport
deriving DecidableEq

/-- main (src/burp.c lines 302-363): read the config file, parse the
CLI, attempt a cookie login, fall back to a password login only on
-EKEYEXPIRED (with a warning) or -ENOKEY (silently), print the login
diagnostic and exit on a login failure, otherwise run the upload loop
seeded with the login result and exit with EXIT_SUCCESS exactly when the
final result is 0. none models a crash inside config processing. -/
def mainRun (env : Env) : Option RunResult :=
  match read_config_file env.expand env.config initialArgs with
  | none => none
  | some (st, rc) =>
    if rc < 0 then
      some ⟨EXIT_FAILURE, [], false, none, none, []⟩
    else
      let pa := parseargs st env.cli
      if pa.2 < 0 then
        some ⟨EXIT_FAILURE, [], false, none, none, []⟩
      else
        let r1 := env.cookieLogin
        if r1 < 0 then
          if r1 = -EKEYEXPIRED ∨ r1 = -ENOKEY then
            let warn := r1 = -EKEYEXPIRED
            let r2 := env.passwordLogin
            if r2 < 0 then
              some ⟨(make_login_error r2).2, [false, true], warn,
                some (.Failed r2), some (make_login_error r2).1, []⟩
            else
              let t := uploadLoop r2 env.uploads
              some ⟨if t.2 = 0 then EXIT_SUCCESS else EXIT_FAILURE, [false, true], warn,
                some .Authenticated, none, t.1⟩
          else
            some ⟨(make_login_error r1).2, [false], false,
              some (.Failed r1), some (make_login_error r1).1, []⟩
        else
          let t := uploadLoop r1 env.uploads
          some ⟨if t.2 = 0 then EXIT_SUCCESS else EXIT_FAILURE, [false], false,
            some .Authenticated, none, t.1⟩

example :
    (uploadLoop 0 [("a", 0), ("b", -5), ("c", 0)]).2 = -5 := by decide
example :
    (uploadLoop 0 [("a", 0), ("b", -5), ("c", -7)]).1 =
      [.ok "a", .failed "b", .failed "c"] := by decide

/-! Helper lemmas about strcmp and the binary search. -/

theorem char_toNat_inj (a b : Char) (h : a.toNat = b.toNat) : a = b :=
  Char.eq_of_val_eq (UInt32.ext h)

theorem string_data_inj (a b : String) (h : a.data = b.data) : a = b := by
  cases a; cases b; simp_all

theorem strcmp_eq_zero_iff : ∀ a b : List Char, strcmp a b = 0 ↔ a = b
  | [], [] => by simp [strcmp]
  | [], _ :: _ => by simp [strcmp]
  | _ :: _, [] => by simp [strcmp]
  | x :: xs, y :: ys => by
    simp only [strcmp]
    by_cases h1 : x.toNat < y.toNat
    · simp only [if_pos h1]
      constructor
      · intro h; omega
      · rintro ⟨rfl, rfl⟩; omega
    · by_cases h2 : y.toNat < x.toNat
      · simp only [if_neg h1, if_pos h2]
        constructor
        · intro h; omega
        · rintro ⟨rfl, rfl⟩; omega
      · have hxy : x = y :=
          char_toNat_inj x y (Nat.le_antisymm (Nat.not_lt.mp h2) (Nat.not_lt.mp h1))
        subst hxy
        simp [if_neg h1, if_neg h2, strcmp_eq_zero_iff xs ys]

/-- A hit of the binary search always comes from an element of the
table whose name equals the key. -/
theorem bsearchAux_some (key : String) :
    ∀ fuel lo hi id, bsearchAux key fuel lo hi = some id →
      ∃ c ∈ categories, c.name = key ∧ c.id = id := by
  intro fuel
  induction fuel with
  | zero => intro lo hi id h; simp [bsearchAux] at h
  | succ n ih =>
    intro lo hi id h
    rw [bsearchAux] at h
    by_cases hlt : lo < hi
    · simp only [if_pos hlt] at h
      rcases hget : categories.get? ((lo + hi) / 2) with _ | c
      · rw [hget] at h; simp at h
      · rw [hget] at h
        simp only at h
        by_cases hc1 : strcmp key.data c.name.data < 0
        · rw [if_pos hc1] at h; exact ih _ _ _ h
        · rw [if_neg hc1] at h
          by_cases hc2 : 0 < strcmp key.data c.name.data
          · rw [if_pos hc2] at h; exact ih _ _ _ h
          · rw [if_neg hc2] at h
            have hz : strcmp key.data c.name.data = 0 := by omega
            have hname : c.name = key :=
              (string_data_inj _ _ ((strcmp_eq_zero_iff _ _).mp hz)).symm
            refine ⟨c, List.get?_mem hget, hname, ?_⟩
            simpa using h
    · simp [if_neg hlt] at h

/-- A validate hit identifies an entry of the table. -/
theorem validate_mem (name id : String)
    (h : category_validate name = some id) : Category.mk name id ∈ categories := by
  obtain ⟨c, hc, hn, hi⟩ := bsearchAux_some name _ _ _ _ h
  cases c
  simp_all

/-- Claim C8: every name in the catalog validates to that entry's
non-empty id, every other name yields NotFound (none), and the
enumerated list of valid names is non-empty and in table order. -/
theorem C8_category_validate_correct :
    (∀ c ∈ categories, category_validate c.name = some c.id ∧ c.id ≠ "") ∧
    (∀ name : String, name ∉ categories.map (·.name) → category_validate name = none) ∧
    usage_categories = categories.map (·.name) ∧ usage_categories ≠ [] := by
  refine ⟨by decide, ?_, by decide, by decide⟩
  intro name hname
  rcases h : category_validate name with _ | id
  · rfl
  · exact (hname (List.mem_map.mpr ⟨_, validate_mem name id h, rfl⟩)).elim

/-- Witness for C8 at concrete inputs. -/
theorem C8_category_validate_correct_witness :
    category_validate "kde" = some "9" ∧ category_validate "nosuch" = none :=
  ⟨(C8_category_validate_correct.1 ⟨"kde", "9"⟩ (by decide)).1,
   C8_category_validate_correct.2.1 "nosuch" (by decide)⟩

/-- Claim C9: the compiled-in table is strictly sorted under the
case-sensitive strcmp order used by the lookup and has no duplicate
names, and consequently the binary-search lookup decides membership
exactly for every queried name. -/
theorem C9_categories_sorted_nodup :
    List.Pairwise (fun a b => category_compare a b < 0) categories ∧
    (categories.map (·.name)).Nodup ∧
    ∀ name id : String, category_validate name = some id ↔ Category.mk name id ∈ categories := by
  refine ⟨by decide, by decide, ?_⟩
  intro name id
  constructor
  · exact validate_mem name id
  · intro hmem
    fin_cases hmem <;> decide

/-! Helper lemmas about the upload loop. -/

/-- The loop reports exactly one outcome per target, in input order. -/
theorem uploadLoop_reports (ups : List (String × Int)) : ∀ r : Int,
    (uploadLoop r ups).1 =
      ups.map fun pk => if pk.2 = 0 then UploadReport.ok pk.1 else UploadReport.failed pk.1 := by
  induction ups with
  | nil => intro r; simp [uploadLoop]
  | cons x rest ih =>
    intro r
    obtain ⟨path, k⟩ := x
    by_cases hk : k = 0 <;> simp [uploadLoop, hk, ih]

/-- A nonzero running result is never overwritten. -/
theorem uploadLoop_result_frozen (ups : List (String × Int)) : ∀ r : Int, r ≠ 0 →
    (uploadLoop r ups).2 = r := by
  induction ups with
  | nil => intro r _; simp [uploadLoop]
  | cons x rest ih =>
    intro r hr
    obtain ⟨path, k⟩ := x
    by_cases hk : k = 0 <;> simp [uploadLoop, hk, if_neg hr, ih r hr]

/-- Starting from 0, the final result is the code of the first failing
target. -/
theorem uploadLoop_first_fail (pre : List (String × Int)) (p : String) (k : Int)
    (post : List (String × Int)) (hpre : ∀ x ∈ pre, x.2 = 0) (hk : k ≠ 0) :
    (uploadLoop 0 (pre ++ (p, k) :: post)).2 = k := by
  induction pre with
  | nil =>
    simp [uploadLoop, if_neg hk, uploadLoop_result_frozen post k hk]
  | cons x rest ih =>
    obtain ⟨path, k0⟩ := x
    have h0 : k0 = 0 := hpre ⟨path, k0⟩ (by simp)
    simp only [List.cons_append, uploadLoop, h0, if_pos rfl]
    exact ih fun x hx => hpre x (by simp [hx])

/-- Starting from 0, the final result is 0 exactly when every target
succeeded. -/
theorem uploadLoop_zero_iff (ups : List (String × Int)) :
    (uploadLoop 0 ups).2 = 0 ↔ ∀ pk ∈ ups, pk.2 = 0 := by
  induction ups with
  | nil => simp [uploadLoop]
  | cons x rest ih =>
    obtain ⟨path, k⟩ := x
    by_cases hk : k = 0
    · simp [uploadLoop, hk, ih]
    · have hres : (uploadLoop 0 ((path, k) :: rest)).2 = k :=
        uploadLoop_first_fail [] path k rest (by simp) hk
      rw [hres]
      simp [hk]

/-- Computation of main when the config file is absent, the CLI is
empty and the first login succeeds with 0. -/
theorem mainRun_loginOk (exp : String → Option String) (pw : Int)
    (ups : List (String × Int)) :
    mainRun ⟨exp, .noPath, [], 0, pw, ups⟩ =
      some ⟨if (uploadLoop 0 ups).2 = 0 then EXIT_SUCCESS else EXIT_FAILURE, [false], false,
        some .Authenticated, none, (uploadLoop 0 ups).1⟩ := by
  simp [mainRun, read_config_file, parseargs]

/-- Claim C1: after a successful login, every target is attempted in
input order without stopping at a failure, each outcome is reported in
order, the process result is success exactly when every target
succeeded, and on failure the aggregated result is the code of the
first failing target (and the exit status is EXIT_FAILURE). -/
theorem C1_upload_batch_semantics (exp : String → Option String) (pw : Int)
    (ups : List (String × Int)) :
    ∃ res : RunResult, mainRun ⟨exp, .noPath, [], 0, pw, ups⟩ = some res ∧
      res.reports =
        (ups.map fun pk => if pk.2 = 0 then UploadReport.ok pk.1 else UploadReport.failed pk.1) ∧
      (res.exitCode = EXIT_SUCCESS ↔ ∀ pk ∈ ups, pk.2 = 0) ∧
      (∀ pre p k post, ups = pre ++ (p, k) :: post → (∀ x ∈ pre, x.2 = 0) → k ≠ 0 →
        (uploadLoop 0 ups).2 = k ∧ res.exitCode = EXIT_FAILURE) := by
  refine ⟨_, mainRun_loginOk exp pw ups, uploadLoop_reports ups 0, ?_, ?_⟩
  · constructor
    · intro h
      refine (uploadLoop_zero_iff ups).mp ?_
      by_contra hz
      simp [hz, EXIT_SUCCESS, EXIT_FAILURE] at h
    · intro h
      have hz := (uploadLoop_zero_iff ups).mpr h
      simp [hz]
  · intro pre p k post hsplit hpre hk
    have h1 : (uploadLoop 0 ups).2 = k := by
      rw [hsplit]; exact uploadLoop_first_fail pre p k post hpre hk
    exact ⟨h1, by simp [h1, hk]⟩

/-- Witness for C1: three targets where the second fails with -5, the
first and third succeed; all three outcomes are reported in order and
the aggregated result is -5 with exit status EXIT_FAILURE. -/
theorem C1_upload_batch_semantics_witness :
    (uploadLoop 0 [("a", 0), ("b", -5), ("c", 0)]).2 = -5 ∧
    ∃ res : RunResult,
      mainRun ⟨fun s => some s, .noPath, [], 0, 0, [("a", 0), ("b", -5), ("c", 0)]⟩ = some res ∧
      res.reports = [UploadReport.ok "a", UploadReport.failed "b", UploadReport.ok "c"] ∧
      res.exitCode = EXIT_FAILURE := by
  obtain ⟨res, hrun, hreps, hiff, hfail⟩ :=
    C1_upload_batch_semantics (fun s => some s) 0 [("a", 0), ("b", -5), ("c", 0)]
  obtain ⟨h1, h2⟩ := hfail [("a", 0)] "b" (-5) [("c", 0)] rfl (by decide) (by decide)
  refine ⟨h1, res, hrun, ?_, h2⟩
  rw [hreps]; decide

/-- Computation of main when the cookie login fails with -EKEYEXPIRED
and the password login succeeds. -/
theorem mainRun_expired_fallbackOk (exp : String → Option String) (r2 : Int)
    (ups : List (String × Int)) (h : 0 ≤ r2) :
    mainRun ⟨exp, .noPath, [], -EKEYEXPIRED, r2, ups⟩ =
      some ⟨if (uploadLoop r2 ups).2 = 0 then EXIT_SUCCESS else EXIT_FAILURE, [false, true], true,
        some .Authenticated, none, (uploadLoop r2 ups).1⟩ := by
  have h2 : ¬ (r2 < 0) := by omega
  simp [mainRun, read_config_file, parseargs, EKEYEXPIRED, ENOKEY, h2]

/-- Computation of main when the cookie login fails with -ENOKEY and
the password login succeeds. -/
theorem mainRun_nokey_fallbackOk (exp : String → Option String) (r2 : Int)
    (ups : List (String × Int)) (h : 0 ≤ r2) :
    mainRun ⟨exp, .noPath, [], -ENOKEY, r2, ups⟩ =
      some ⟨if (uploadLoop r2 ups).2 = 0 then EXIT_SUCCESS else EXIT_FAILURE, [false, true], false,
        some .Authenticated, none, (uploadLoop r2 ups).1⟩ := by
  have h2 : ¬ (r2 < 0) := by omega
  simp [mainRun, read_config_file, parseargs, EKEYEXPIRED, ENOKEY, h2]

/-- Computation of main when the cookie login fails with a kind that
does not trigger the fallback. -/
theorem mainRun_cookieFail_terminal (exp : String → Option String) (r1 pw : Int)
    (ups : List (String × Int)) (h1 : r1 < 0) (h2 : r1 ≠ -EKEYEXPIRED) (h3 : r1 ≠ -ENOKEY) :
    mainRun ⟨exp, .noPath, [], r1, pw, ups⟩ =
      some ⟨EXIT_FAILURE, [false], false, some (.Failed r1), some (make_login_error r1).1, []⟩ := by
  simp [mainRun, read_config_file, parseargs, h1, h2, h3, make_login_error]

/-- Computation of main when the fallback password login also fails. -/
theorem mainRun_fallback_fail (exp : String → Option String) (pw : Int)
    (ups : List (String × Int)) (hpw : pw < 0) :
    mainRun ⟨exp, .noPath, [], -EKEYEXPIRED, pw, ups⟩ =
      some ⟨EXIT_FAILURE, [false, true], true, some (.Failed pw), some (make_login_error pw).1, []⟩ ∧
    mainRun ⟨exp, .noPath, [], -ENOKEY, pw, ups⟩ =
      some ⟨EXIT_FAILURE, [false, true], false, some (.Failed pw), some (make_login_error pw).1, []⟩ := by
  constructor <;> simp [mainRun, read_config_file, parseargs, EKEYEXPIRED, ENOKEY, hpw,
    make_login_error]

/-- Any defined run makes login calls [] or [false] or [false, true]:
the cookie attempt always comes first and there are at most two. -/
theorem mainRun_loginSeq_cases (env : Env) (res : RunResult) (h : mainRun env = some res) :
    res.loginSeq = [] ∨ res.loginSeq = [false] ∨ res.loginSeq = [false, true] := by
  obtain ⟨exp, cfg, cli, r1, r2, ups⟩ := env
  unfold mainRun at h
  rcases hc : read_config_file exp cfg initialArgs with _ | p
  · rw [hc] at h; exact absurd h (by simp)
  · obtain ⟨st, rc⟩ := p
    rw [hc] at h
    dsimp only at h
    by_cases hrc : rc < 0
    · rw [if_pos hrc] at h
      injection h with h
      subst h
      simp
    · rw [if_neg hrc] at h
      by_cases hpa : (parseargs st cli).2 < 0
      · rw [if_pos hpa] at h
        injection h with h
        subst h
        simp
      · rw [if_neg hpa] at h
        by_cases h1 : r1 < 0
        · rw [if_pos h1] at h
          by_cases hor : r1 = -EKEYEXPIRED ∨ r1 = -ENOKEY
          · rw [if_pos hor] at h
            by_cases h2 : r2 < 0
            · rw [if_pos h2] at h
              injection h with h
              subst h
              simp
            · rw [if_neg h2] at h
              injection h with h
              subst h
              simp
          · rw [if_neg hor] at h
            injection h with h
            subst h
            simp
        · rw [if_neg h1] at h
          injection h with h
          subst h
          simp

/-- Claim C2: the coordinator attempts the cookie login first; on
-EKEYEXPIRED it warns and falls back to the password login, on -ENOKEY
it falls back silently; a successful second attempt yields
Authenticated after exactly two login calls. -/
theorem C2_cookie_fallback (exp : String → Option String) (r2 : Int)
    (ups : List (String × Int)) (h : 0 ≤ r2) :
    (∃ res : RunResult, mainRun ⟨exp, .noPath, [], -EKEYEXPIRED, r2, ups⟩ = some res ∧
      res.loginSeq = [false, true] ∧ res.warned = true ∧ res.authState = some .Authenticated) ∧
    (∃ res : RunResult, mainRun ⟨exp, .noPath, [], -ENOKEY, r2, ups⟩ = some res ∧
      res.loginSeq = [false, true] ∧ res.warned = false ∧ res.authState = some .Authenticated) :=
  ⟨⟨_, mainRun_expired_fallbackOk exp r2 ups h, rfl, rfl, rfl⟩,
   ⟨_, mainRun_nokey_fallbackOk exp r2 ups h, rfl, rfl, rfl⟩⟩

/-- Witness for C2 at a concrete input. -/
theorem C2_cookie_fallback_witness :
    ∃ res : RunResult, mainRun ⟨fun s => some s, .noPath, [], -EKEYEXPIRED, 0, []⟩ = some res ∧
      res.loginSeq = [false, true] ∧ res.warned = true ∧ res.authState = some .Authenticated :=
  (C2_cookie_fallback (fun s => some s) 0 [] (by decide)).1

/-- Claim C3: any first-attempt failure other than -EKEYEXPIRED and
-ENOKEY goes directly to Failed after exactly one login call, and no
run ever makes more than two login calls. -/
theorem C3_terminal_failure_no_fallback :
    (∀ (exp : String → Option String) (r1 pw : Int) (ups : List (String × Int)),
      r1 < 0 → r1 ≠ -EKEYEXPIRED → r1 ≠ -ENOKEY →
      ∃ res : RunResult, mainRun ⟨exp, .noPath, [], r1, pw, ups⟩ = some res ∧
        res.loginSeq = [false] ∧ res.authState = some (.Failed r1) ∧
        res.exitCode = EXIT_FAILURE ∧ res.reports = []) ∧
    (∀ (env : Env) (res : RunResult), mainRun env = some res → res.loginSeq.length ≤ 2) := by
  constructor
  · intro exp r1 pw ups h1 h2 h3
    exact ⟨_, mainRun_cookieFail_terminal exp r1 pw ups h1 h2 h3, rfl, rfl, rfl, rfl⟩
  · intro env res h
    rcases mainRun_loginSeq_cases env res h with hs | hs | hs <;> simp [hs]

/-- Witness for C3 at a concrete input (-EACCES, bad credentials). -/
theorem C3_terminal_failure_no_fallback_witness :
    (∃ res : RunResult, mainRun ⟨fun s => some s, .noPath, [], -13, 0, []⟩ = some res ∧
      res.loginSeq = [false] ∧ res.authState = some (.Failed (-13)) ∧
      res.exitCode = EXIT_FAILURE ∧ res.reports = []) ∧
    (mainRun ⟨fun s => some s, .noPath, [], 0, 0, []⟩ = some ⟨EXIT_SUCCESS, [false], false,
      some .Authenticated, none, []⟩ → ([false] : List Bool).length ≤ 2) :=
  ⟨C3_terminal_failure_no_fallback.1 (fun s => some s) (-13) 0 [] (by decide) (by decide)
    (by decide),
   fun h =>
    C3_terminal_failure_no_fallback.2 ⟨fun s => some s, .noPath, [], 0, 0, []⟩ _ h⟩

/-- Claim C4: the diagnostic of a terminal login failure is the exact
message of the failure-kind table (generic formatted text otherwise),
the return value is EXIT_FAILURE, and a login failure ends the run with
a nonzero exit status and an empty report list (no upload attempted). -/
theorem C4_login_error_diagnostics :
    (∀ e : Int,
      (make_login_error e).2 = EXIT_FAILURE ∧
      (-e = EBADR →
        (make_login_error e).1 = .text "error: insufficient credentials provided to login.\n") ∧
      (-e = EACCES → (make_login_error e).1 = .text "error: bad username or password.\n") ∧
      (-e = EKEYEXPIRED →
        (make_login_error e).1 = .text "error: required login cookie has expired.\n") ∧
      (-e = EKEYREJECTED → (make_login_error e).1 = .text "error: login cookie not accepted.\n") ∧
      (-e ≠ EBADR → -e ≠ EACCES → -e ≠ EKEYEXPIRED → -e ≠ EKEYREJECTED →
        (make_login_error e).1 = .genericSystemError e)) ∧
    (∀ (exp : String → Option String) (r1 pw : Int) (ups : List (String × Int)),
      r1 < 0 → r1 ≠ -EKEYEXPIRED → r1 ≠ -ENOKEY →
      mainRun ⟨exp, .noPath, [], r1, pw, ups⟩ =
        some ⟨EXIT_FAILURE, [false], false, some (.Failed r1), some (make_login_error r1).1, []⟩) ∧
    (∀ (exp : String → Option String) (pw : Int) (ups : List (String × Int)), pw < 0 →
      mainRun ⟨exp, .noPath, [], -EKEYEXPIRED, pw, ups⟩ =
        some ⟨EXIT_FAILURE, [false, true], true, some (.Failed pw),
          some (make_login_error pw).1, []⟩ ∧
      mainRun ⟨exp, .noPath, [], -ENOKEY, pw, ups⟩ =
        some ⟨EXIT_FAILURE, [false, true], false, some (.Failed pw),
          some (make_login_error pw).1, []⟩) := by
  refine ⟨?_, mainRun_cookieFail_terminal, mainRun_fallback_fail⟩
  intro e
  refine ⟨rfl, ?_, ?_, ?_, ?_, ?_⟩
  · intro h
    have he : e = -53 := by simp [EBADR] at h; omega
    subst he; decide
  · intro h
    have he : e = -13 := by simp [EACCES] at h; omega
    subst he; decide
  · intro h
    have he : e = -127 := by simp [EKEYEXPIRED] at h; omega
    subst he; decide
  · intro h
    have he : e = -129 := by simp [EKEYREJECTED] at h; omega
    subst he; decide
  · intro h1 h2 h3 h4
    simp [make_login_error, h1, h2, h3, h4]

/-- Witness for C4 at concrete inputs (-EACCES terminal, -EACCES after
an expired-cookie fallback). -/
theorem C4_login_error_diagnostics_witness :
    (make_login_error (-13)).1 = .text "error: bad username or password.\n" ∧
    mainRun ⟨fun s => some s, .noPath, [], -13, 0, [("a", 0)]⟩ =
      some ⟨EXIT_FAILURE, [false], false, some (.Failed (-13)),
        some (make_login_error (-13)).1, []⟩ ∧
    mainRun ⟨fun s => some s, .noPath, [], -127, -13, [("a", 0)]⟩ =
      some ⟨EXIT_FAILURE, [false, true], true, some (.Failed (-13)),
        some (make_login_error (-13)).1, []⟩ :=
  ⟨(C4_login_error_diagnostics.1 (-13)).2.2.1 (by decide),
   C4_login_error_diagnostics.2.1 (fun s => some s) (-13) 0 [("a", 0)] (by decide) (by decide)
     (by decide),
   by
    have := (C4_login_error_diagnostics.2.2 (fun s => some s) (-13) [("a", 0)] (by decide)).1
    simpa [EKEYEXPIRED] using this⟩

/-! Helper lemmas about whitespace trimming. -/

theorem dropWhile_append_all {α} {p : α → Bool} {a b : List α}
    (h : ∀ x ∈ a, p x = true) : (a ++ b).dropWhile p = b.dropWhile p := by
  induction a with
  | nil => simp
  | cons c t ih =>
    have hc : p c = true := h c (by simp)
    simp only [List.cons_append, List.dropWhile_cons, hc, if_pos]
    exact ih fun x hx => h x (by simp [hx])

theorem dropWhile_append_ne {α} {p : α → Bool} {a b : List α}
    (h : a.dropWhile p ≠ []) : (a ++ b).dropWhile p = a.dropWhile p ++ b := by
  induction a with
  | nil => simp at h
  | cons c t ih =>
    by_cases hc : p c = true
    · rw [List.dropWhile_cons_of_pos hc] at h
      simp only [List.cons_append, List.dropWhile_cons, hc, if_pos,
        List.dropWhile_cons_of_pos hc]
      exact ih h
    · have hc' : p c = false := by simp_all
      simp [List.dropWhile_cons, hc']

theorem rdropWhile_cons_of_nil {α} {p : α → Bool} {t : List α} (c : α)
    (ht : t.rdropWhile p = []) :
    (c :: t).rdropWhile p = if p c then [] else [c] := by
  have hall : ∀ x ∈ t.reverse, p x = true := by
    intro x hx
    exact List.rdropWhile_eq_nil_iff.mp ht x (by simpa using hx)
  simp only [List.rdropWhile, List.reverse_cons, dropWhile_append_all hall]
  by_cases hc : p c = true
  · simp [List.dropWhile_cons, hc]
  · have hc' : p c = false := by simp_all
    simp [List.dropWhile_cons, hc']

theorem rdropWhile_cons_of_ne {α} {p : α → Bool} {t : List α} (c : α)
    (ht : t.rdropWhile p ≠ []) :
    (c :: t).rdropWhile p = c :: t.rdropWhile p := by
  have ht' : t.reverse.dropWhile p ≠ [] := by
    intro hnil
    exact ht (by simp [List.rdropWhile, hnil])
  simp [List.rdropWhile, List.reverse_cons, dropWhile_append_ne ht']

theorem rdropWhile_append_ne {α} {p : α → Bool} {a b : List α}
    (h : b.rdropWhile p ≠ []) : (a ++ b).rdropWhile p = a ++ b.rdropWhile p := by
  have hb : b.reverse.dropWhile p ≠ [] := by
    intro hnil
    exact h (by simp [List.rdropWhile, hnil])
  simp [List.rdropWhile, List.reverse_append, dropWhile_append_ne hb]

theorem dropWhile_rdropWhile_comm {α} (p : α → Bool) (l : List α) :
    (l.rdropWhile p).dropWhile p = (l.dropWhile p).rdropWhile p := by
  induction l with
  | nil => simp
  | cons c t ih =>
    by_cases hc : p c = true
    · by_cases ht : t.rdropWhile p = []
      · rw [rdropWhile_cons_of_nil c ht, if_pos hc]
        simp [List.dropWhile_cons, hc, ← ih, ht]
      · rw [rdropWhile_cons_of_ne c ht]
        simp [List.dropWhile_cons, hc, ih]
    · have hc' : p c = false := by simp_all
      have h2 : (c :: t).dropWhile p = c :: t := List.dropWhile_cons_of_neg (by simp [hc'])
      by_cases ht : t.rdropWhile p = []
      · have h1 : (c :: t).rdropWhile p = [c] := by
          rw [rdropWhile_cons_of_nil c ht, if_neg (by simp [hc'])]
        rw [h1, h2, h1]
        simp [List.dropWhile_cons, hc']
      · have h1 : (c :: t).rdropWhile p = c :: t.rdropWhile p := rdropWhile_cons_of_ne c ht
        rw [h1, h2, h1]
        exact List.dropWhile_cons_of_neg (by simp [hc'])

/-- Trimming a line of the form key ++ equals ++ value: the leading
whitespace of the key and the trailing whitespace of the value go. -/
theorem strtrim_key_val (k v : List Char) :
    strtrim (k ++ '=' :: v) = k.dropWhile isspace ++ '=' :: v.rdropWhile isspace := by
  unfold strtrim
  have heq : isspace '=' = false := by decide
  have h1 : (k ++ '=' :: v).dropWhile isspace = k.dropWhile isspace ++ '=' :: v := by
    by_cases hk : k.dropWhile isspace = []
    · rw [dropWhile_append_all (List.dropWhile_eq_nil_iff.mp hk), hk,
        List.dropWhile_cons_of_neg (by simp [heq]), List.nil_append]
    · exact dropWhile_append_ne hk
  have h2 : ('=' :: v).rdropWhile isspace = '=' :: v.rdropWhile isspace := by
    by_cases hv : v.rdropWhile isspace = []
    · rw [rdropWhile_cons_of_nil '=' hv, if_neg (by simp [heq]), hv]
    · exact rdropWhile_cons_of_ne '=' hv
  rw [h1, rdropWhile_append_ne (p := isspace) (by simp [h2]), h2]

theorem strtrim_dropWhile (k : List Char) :
    strtrim (k.dropWhile isspace) = strtrim k := by
  unfold strtrim
  rw [List.dropWhile_idempotent]

theorem strtrim_rdropWhile (v : List Char) :
    strtrim (v.rdropWhile isspace) = strtrim v := by
  unfold strtrim
  rw [dropWhile_rdropWhile_comm, List.rdropWhile_idempotent]

theorem splitEq_not_mem {l : List Char} (h : '=' ∉ l) : splitEq l = (l, none) := by
  induction l with
  | nil => rfl
  | cons c t ih =>
    have hc : ¬ (c = '=') := fun hc => h (by simp [hc])
    simp [splitEq, hc, ih fun hm => h (by simp [hm])]

theorem splitEq_append {k v : List Char} (h : '=' ∉ k) :
    splitEq (k ++ '=' :: v) = (k, some v) := by
  induction k with
  | nil => simp [splitEq]
  | cons c t ih =>
    have hc : ¬ (c = '=') := fun hc => h (by simp [hc])
    simp [splitEq, hc, ih fun hm => h (by simp [hm])]

/-- A line with an equals sign and a non-comment key dispatches on the
trimmed key and the trimmed value: surrounding whitespace of both is
irrelevant. -/
theorem processLine_key_val (exp : String → Option String) (st : ArgState)
    (k v : List Char) (hk : '=' ∉ k)
    (hh : (k.dropWhile isspace).head? ≠ some '#') :
    processLine exp st (k ++ '=' :: v) = handleKeyValue exp st (strtrim k) (some (strtrim v)) := by
  simp only [processLine]
  rw [strtrim_key_val]
  rw [if_neg (by simp)]
  have hhead : (k.dropWhile isspace ++ '=' :: v.rdropWhile isspace).head? ≠ some '#' := by
    rcases hd : k.dropWhile isspace with _ | ⟨c, t⟩
    · simp
    · rw [hd] at hh
      simpa using hh
  rw [if_neg hhead]
  have hks : '=' ∉ k.dropWhile isspace := fun hm => hk ((List.dropWhile_sublist _).subset hm)
  rw [splitEq_append hks]
  simp [strtrim_dropWhile, strtrim_rdropWhile]

/-- A line of pure whitespace trims to nothing. -/
theorem strtrim_all_space {line : List Char} (h : ∀ x ∈ line, isspace x = true) :
    strtrim line = [] := by
  unfold strtrim
  rw [List.dropWhile_eq_nil_iff.mpr h]
  simp

/-- A blank line is skipped. -/
theorem processLine_blank (exp : String → Option String) (st : ArgState) (line : List Char)
    (h : strtrim line = []) : processLine exp st line = some st := by
  simp [processLine, h]

/-- If the first non-whitespace character is a hash, the whole trimmed
line still starts with that hash. -/
theorem strtrim_head_hash {line : List Char}
    (h : (line.dropWhile isspace).head? = some '#') : (strtrim line).head? = some '#' := by
  unfold strtrim
  rcases hd : line.dropWhile isspace with _ | ⟨c, t⟩
  · rw [hd] at h; simp at h
  · rw [hd] at h
    simp only [List.head?] at h
    injection h with h
    subst h
    by_cases ht : t.rdropWhile isspace = []
    · rw [rdropWhile_cons_of_nil '#' ht, if_neg (by decide)]
      rfl
    · rw [rdropWhile_cons_of_ne '#' ht]
      rfl

/-- A comment line (first non-whitespace character is hash) is
skipped. -/
theorem processLine_comment (exp : String → Option String) (st : ArgState) (line : List Char)
    (h : (line.dropWhile isspace).head? = some '#') : processLine exp st line = some st := by
  have hh := strtrim_head_hash h
  simp only [processLine]
  by_cases hl : (strtrim line).length = 0
  · rw [if_pos hl]
  · rw [if_neg hl, if_pos hh]

/-- Reattaching a string to its character data. -/
theorem string_mk_data (s : String) : String.mk s.data = s := by
  cases s; rfl

/-- Effect of a User config line with a trim-stable value; the line is
stated in character normal form. -/
theorem processLine_user_line (exp : String → Option String) (st : ArgState) (u : String)
    (hu : strtrim u.data = u.data) :
    processLine exp st ('U' :: 's' :: 'e' :: 'r' :: '=' :: u.data) =
      some { st with arg_username := some u } := by
  have hdata : ('U' :: 's' :: 'e' :: 'r' :: '=' :: u.data) = "User".data ++ '=' :: u.data := rfl
  rw [hdata, processLine_key_val exp st _ _ (by decide) (by decide)]
  rw [show strtrim "User".data = "User".data by decide, hu]
  simp [handleKeyValue, string_mk_data]

/-- Effect of a Password config line with a trim-stable value. -/
theorem processLine_password_line (exp : String → Option String) (st : ArgState) (p : String)
    (hp : strtrim p.data = p.data) :
    processLine exp st ('P' :: 'a' :: 's' :: 's' :: 'w' :: 'o' :: 'r' :: 'd' :: '=' :: p.data) =
      some { st with arg_password := some p } := by
  have hdata : ('P' :: 'a' :: 's' :: 's' :: 'w' :: 'o' :: 'r' :: 'd' :: '=' :: p.data) =
      "Password".data ++ '=' :: p.data := rfl
  rw [hdata, processLine_key_val exp st _ _ (by decide) (by decide)]
  rw [show strtrim "Password".data = "Password".data by decide, hp]
  simp [handleKeyValue, string_mk_data]

/-- Effect of a Cookies config line with a trim-stable value whose
shell expansion succeeds. -/
theorem processLine_cookies_line (exp : String → Option String) (st : ArgState) (f e : String)
    (hf : strtrim f.data = f.data) (hexp : exp f = some e) :
    processLine exp st ('C' :: 'o' :: 'o' :: 'k' :: 'i' :: 'e' :: 's' :: '=' :: f.data) =
      some { st with arg_cookiefile := some e } := by
  have hdata : ('C' :: 'o' :: 'o' :: 'k' :: 'i' :: 'e' :: 's' :: '=' :: f.data) =
      "Cookies".data ++ '=' :: f.data := rfl
  rw [hdata, processLine_key_val exp st _ _ (by decide) (by decide)]
  rw [show strtrim "Cookies".data = "Cookies".data by decide, hf]
  simp [handleKeyValue, string_mk_data, hexp]

/-- Effect of a bare Persist config line (no value). -/
theorem processLine_persist_line (exp : String → Option String) (st : ArgState) :
    processLine exp st ['P', 'e', 'r', 's', 'i', 's', 't'] =
      some { st with arg_persist_cookies := true } := rfl

/-- Claim C7: surrounding whitespace of key and value is trimmed, blank
lines and hash-comment lines are ignored; in particular a padded and an
unpadded User assignment of alice resolve identically. -/
theorem C7_config_line_trimming :
    (∀ (exp : String → Option String) (st : ArgState) (line : List Char),
      (∀ x ∈ line, isspace x = true) → processLine exp st line = some st) ∧
    (∀ (exp : String → Option String) (st : ArgState) (line : List Char),
      (line.dropWhile isspace).head? = some '#' → processLine exp st line = some st) ∧
    (∀ (exp : String → Option String) (st : ArgState) (k v : List Char), '=' ∉ k →
      (k.dropWhile isspace).head? ≠ some '#' →
      processLine exp st (k ++ '=' :: v) = handleKeyValue exp st (strtrim k) (some (strtrim v))) ∧
    (∀ (exp : String → Option String) (st : ArgState),
      processLine exp st "  User = alice  ".data = some { st with arg_username := some "alice" } ∧
      processLine exp st "User=alice".data = some { st with arg_username := some "alice" }) := by
  refine ⟨?_, processLine_comment, processLine_key_val, ?_⟩
  · intro exp st line h
    exact processLine_blank exp st line (strtrim_all_space h)
  · intro exp st
    constructor
    · have hdata : "  User = alice  ".data = "  User ".data ++ '=' :: " alice  ".data := by decide
      rw [hdata, processLine_key_val exp st _ _ (by decide) (by decide)]
      rw [show strtrim "  User ".data = "User".data by decide,
        show strtrim " alice  ".data = "alice".data by decide]
      simp [handleKeyValue, string_mk_data]
    · have hdata : "User=alice".data = "User".data ++ '=' :: "alice".data := by decide
      rw [hdata, processLine_key_val exp st _ _ (by decide) (by decide)]
      rw [show strtrim "User".data = "User".data by decide,
        show strtrim "alice".data = "alice".data by decide]
      simp [handleKeyValue, string_mk_data]

/-- Witness for C7 at concrete inputs. -/
theorem C7_config_line_trimming_witness :
    processLine (fun s => some s) initialArgs "  User = alice  ".data =
      some { initialArgs with arg_username := some "alice" } ∧
    processLine (fun s => some s) initialArgs "   ".data = some initialArgs ∧
    processLine (fun s => some s) initialArgs " # x".data = some initialArgs :=
  ⟨(C7_config_line_trimming.2.2.2 (fun s => some s) initialArgs).1,
   C7_config_line_trimming.1 (fun s => some s) initialArgs _ (by decide),
   C7_config_line_trimming.2.1 (fun s => some s) initialArgs _ (by decide)⟩

/-- Claim C6: a missing config file (open fails with ENOENT, or no path
can be determined) is not an error and resolution continues unchanged;
an existing-but-unreadable file (any other open errno) returns -errno,
and main then exits EXIT_FAILURE before any login or upload call. -/
theorem C6_config_open_distinction :
    (∀ (exp : String → Option String) (st : ArgState),
      read_config_file exp (.openFail ENOENT) st = some (st, 0)) ∧
    (∀ (exp : String → Option String) (st : ArgState) (e : Int), e ≠ ENOENT →
      read_config_file exp (.openFail e) st = some (st, -e)) ∧
    (∀ (exp : String → Option String) (cli : List CliOpt) (r1 r2 : Int)
      (ups : List (String × Int)) (e : Int), 0 < e → e ≠ ENOENT →
      mainRun ⟨exp, .openFail e, cli, r1, r2, ups⟩ =
        some ⟨EXIT_FAILURE, [], false, none, none, []⟩) ∧
    (∀ (exp : String → Option String) (cli : List CliOpt) (r1 r2 : Int)
      (ups : List (String × Int)),
      mainRun ⟨exp, .openFail ENOENT, cli, r1, r2, ups⟩ =
        mainRun ⟨exp, .noPath, cli, r1, r2, ups⟩) := by
  refine ⟨?_, ?_, ?_, ?_⟩
  · intro exp st; simp [read_config_file]
  · intro exp st e he; simp [read_config_file, he]
  · intro exp cli r1 r2 ups e he hne
    have hneg : -e < 0 := by omega
    simp [mainRun, read_config_file, hne, hneg]
  · intro exp cli r1 r2 ups
    simp [mainRun, read_config_file]

/-- Witness for C6 at a concrete errno (EACCES = 13). -/
theorem C6_config_open_distinction_witness :
    read_config_file (fun s => some s) (.openFail 13) initialArgs = some (initialArgs, -13) ∧
    mainRun ⟨fun s => some s, .openFail 13, [], 0, 0, [("a", 0)]⟩ =
      some ⟨EXIT_FAILURE, [], false, none, none, []⟩ ∧
    read_config_file (fun s => some s) (.openFail ENOENT) initialArgs = some (initialArgs, 0) :=
  ⟨C6_config_open_distinction.2.1 (fun s => some s) initialArgs 13 (by decide),
   C6_config_open_distinction.2.2.1 (fun s => some s) [] 0 0 [("a", 0)] 13 (by decide) (by decide),
   C6_config_open_distinction.1 (fun s => some s) initialArgs⟩

/-- Claim C10 (refuted by the code): a recognized key with no equals
sign on its line reaches strdup(NULL) or wordexp(NULL), i.e. the
value-handling path dereferences the absent value; the embedding models
that undefined behaviour as none, and a whole run crashes on such a
line. A bare Persist line, whose handler ignores the value, is fine. -/
theorem C10_line_without_value_crashes :
    processLine (fun s => some s) initialArgs "User".data = none ∧
    processLine (fun s => some s) initialArgs "Password".data = none ∧
    processLine (fun s => some s) initialArgs "Cookies".data = none ∧
    processLine (fun s => some s) initialArgs "Persist".data =
      some { initialArgs with arg_persist_cookies := true } ∧
    mainRun ⟨fun s => some s, .opened ["User".data], [], 0, 0, []⟩ = none := by
  decide

/-! The precedence scenario for claim C5. -/

/-- Specialisation of the Cookies line to an identity expansion. -/
theorem processLine_cookies_line_id (st : ArgState) (f : String)
    (hf : strtrim f.data = f.data) :
    processLine (fun s => some s) st ('C' :: 'o' :: 'o' :: 'k' :: 'i' :: 'e' :: 's' :: '=' :: f.data) =
      some { st with arg_cookiefile := some f } :=
  processLine_cookies_line (fun s => some s) st f f hf rfl

/-- The config-file content of a resolution scenario: optional User,
Password and Cookies assignments and an optional bare Persist line. -/
def configLines (cu cp cf : Option String) (ck : Bool) : List (List Char) :=
  (match cu with | some u => [("User=" ++ u).data] | none => []) ++
  (match cp with | some p => [("Password=" ++ p).data] | none => []) ++
  (match cf with | some f => [("Cookies=" ++ f).data] | none => []) ++
  (if ck then ["Persist".data] else [])

/-- The CLI options of a resolution scenario; the category option is
given together with the id it validates to. -/
def cliOpts (u p f d : Option String) (k : Bool) (cat : Option (String × String)) : List CliOpt :=
  (match u with | some s => [CliOpt.user s] | none => []) ++
  (match p with | some s => [CliOpt.password s] | none => []) ++
  (match f with | some s => [CliOpt.cookies s] | none => []) ++
  (match d with | some s => [CliOpt.domain s] | none => []) ++
  (if k then [CliOpt.keepCookies] else []) ++
  (match cat with | some c => [CliOpt.category c.1] | none => [])

/-- Reading the scenario config file overrides exactly the fields the
file supplies. -/
theorem read_config_stage (cu cp cf : Option String) (ck : Bool) (st : ArgState)
    (hcu : ∀ x ∈ cu, strtrim x.data = x.data)
    (hcp : ∀ x ∈ cp, strtrim x.data = x.data)
    (hcf : ∀ x ∈ cf, strtrim x.data = x.data) :
    read_config_file (fun s => some s) (.opened (configLines cu cp cf ck)) st =
      some ({ st with
        arg_username := cu.or st.arg_username
        arg_password := cp.or st.arg_password
        arg_cookiefile := cf.or st.arg_cookiefile
        arg_persist_cookies := ck || st.arg_persist_cookies }, 0) := by
  rcases cu with _ | uv <;> rcases cp with _ | pv <;> rcases cf with _ | fv <;> cases ck <;>
    simp_all [configLines, read_config_file, processLine_user_line, processLine_password_line,
      processLine_cookies_line_id, processLine_persist_line]

/-- Parsing the scenario CLI options overrides exactly the fields the
CLI supplies. -/
theorem parseargs_stage (st : ArgState) (u p f d : Option String) (k : Bool)
    (cat : Option (String × String))
    (hcat : ∀ c ∈ cat, category_validate c.1 = some c.2) :
    parseargs st (cliOpts u p f d k cat) =
      ({ st with
        arg_username := u.or st.arg_username
        arg_password := p.or st.arg_password
        arg_cookiefile := f.or st.arg_cookiefile
        arg_domain := d.getD st.arg_domain
        arg_persist_cookies := k || st.arg_persist_cookies
        arg_category := (cat.map (·.2)).getD st.arg_category }, 0) := by
  rcases u with _ | uv <;> rcases p with _ | pv <;> rcases f with _ | fv <;>
    rcases d with _ | dv <;> cases k <;> rcases cat with _ | ⟨cv, iv⟩ <;>
    simp_all [cliOpts, parseargs]

/-- Claim C5: for each field, a CLI value wins over a config-file
value, a config-file value wins over the default, and the defaults are
the canonical hostname, persistCookies false and the category value 1,
which is distinct from every explicit catalog id. -/
theorem C5_parameter_precedence (cu cp cf : Option String) (ck : Bool)
    (u p f d : Option String) (k : Bool) (cat : Option (String × String))
    (hcu : ∀ x ∈ cu, strtrim x.data = x.data)
    (hcp : ∀ x ∈ cp, strtrim x.data = x.data)
    (hcf : ∀ x ∈ cf, strtrim x.data = x.data)
    (hcat : ∀ c ∈ cat, category_validate c.1 = some c.2) :
    (∃ st1 : ArgState,
      read_config_file (fun s => some s) (.opened (configLines cu cp cf ck)) initialArgs =
        some (st1, 0) ∧
      parseargs st1 (cliOpts u p f d k cat) =
        ({ arg_domain := d.getD "aur.archlinux.org"
           arg_username := u.or cu
           arg_password := p.or cp
           arg_cookiefile := f.or cf
           arg_category := (cat.map (·.2)).getD "1"
           arg_persist_cookies := k || ck }, 0)) ∧
    "1" ∉ categories.map (·.id) := by
  refine ⟨⟨_, read_config_stage cu cp cf ck initialArgs hcu hcp hcf, ?_⟩, by decide⟩
  rw [parseargs_stage _ u p f d k cat hcat]
  simp [initialArgs]

/-- Witness for C5: the config file supplies username, password,
cookie path and persistence; the CLI overrides username and cookie
path and adds a domain and a validated category. -/
theorem C5_parameter_precedence_witness :
    ∃ st1 : ArgState,
      read_config_file (fun s => some s)
        (.opened (configLines (some "cfguser") (some "cfgpw") (some "/cfg/jar") true))
        initialArgs = some (st1, 0) ∧
      parseargs st1 (cliOpts (some "cliuser") none (some "/cli/jar") (some "aur.example.org")
        false (some ("kde", "9"))) =
        ({ arg_domain := "aur.example.org"
           arg_username := some "cliuser"
           arg_password := some "cfgpw"
           arg_cookiefile := some "/cli/jar"
           arg_category := "9"
           arg_persist_cookies := true }, 0) := by
  obtain ⟨⟨st1, h1, h2⟩, _⟩ :=
    C5_parameter_precedence (some "cfguser") (some "cfgpw") (some "/cfg/jar") true
      (some "cliuser") none (some "/cli/jar") (some "aur.example.org") false (some ("kde", "9"))
      (by decide) (by decide) (by decide) (by decide)
  exact ⟨st1, h1, h2⟩

end Burp
